import Mathlib

/-!
Verification of the OpenAccessBooking core algorithms.

This file shallowly embeds the two algorithmic components of the repository:

* `validate_nhs_number` from `src/backend/src/utils/validators.py`
  (the spec's "Identifier Validator"), and
* `check_appointment_conflicts` from
  `src/backend/src/appointments/update_appointment.py` (the spec's "Conflict
  Detector"; the variant in `create_appointment.py` is the same function with
  `exclude_appointment_id = None`).

Python exceptions are modelled with `Except String`; the blanket
`except Exception: return []` handler of the conflict checker is the
`.error` branch of the top-level match.  Python `datetime` values are
modelled by `DateTime` below; `datetime.replace(minute := m)` raises
`ValueError` unless `0 ≤ m ≤ 59`, which `DateTime.replaceMinute` mirrors.
-/

/-! ## The Identifier Validator (`validate_nhs_number`) -/

/-- A Python call argument as received by `validate_nhs_number`: `None`, a
string, or any non-string value. -/
inductive PyInput where
  | pyNone : PyInput
  | str (s : String) : PyInput
  | nonStr : PyInput
deriving DecidableEq

/-- The characters removed by `re.sub(r'[\s-]', '', ...)`: ASCII whitespace
(the Python regex class `\s`) and the hyphen. -/
def isStripped (c : Char) : Bool :=
  c = ' ' || c = '\t' || c = '\n' || c = '\r' || c = '\x0b' || c = '\x0c' || c = '-'

/-- `re.sub(r'[\s-]', '', s)`: remove whitespace and hyphens. -/
def stripWsHyphen (l : List Char) : List Char :=
  l.filter (fun c => !(isStripped c))

/-- `re.match(r'^\d{10}$', s)`: exactly ten ASCII decimal digits. -/
def isTenDigits (l : List Char) : Bool :=
  l.length = 10 && l.all Char.isDigit

/-- `int(c)` on a single character: the digit value, or a `ValueError`. -/
def pyDigitVal (c : Char) : Except String Nat :=
  if c.isDigit then .ok (c.toNat - 48) else .error "invalid literal for int"

/-- `s[i]` on a Python string: the character, or an `IndexError`. -/
def pyIndex (l : List Char) (i : Nat) : Except String Char :=
  match l.get? i with
  | some c => .ok c
  | none => .error "string index out of range"

/-- `sum(digit * (10 - i) for i, digit in enumerate(digits))`. -/
def weightedSum (digits : List Nat) : Nat :=
  (digits.enum.map (fun p => p.2 * (10 - p.1))).sum

/-- Shallow embedding of `validate_nhs_number` (validators.py, lines 11-40),
with every operation that can raise in Python made explicit in
`Except String`.  The leading guard is Python's
`if not nhs_number or not isinstance(nhs_number, str): return False`
(note the empty string is falsy). -/
def validate_nhs_numberE : PyInput → Except String Bool
  | .pyNone => .ok false
  | .nonStr => .ok false
  | .str s =>
    if s = "" then .ok false
    else
      let clean := stripWsHyphen s.toList
      if !(isTenDigits clean) then .ok false
      else
        match (clean.take 9).mapM pyDigitVal with
        | .error e => .error e
        | .ok digits =>
          match pyIndex clean 9 with
          | .error e => .error e
          | .ok c9 =>
            match pyDigitVal c9 with
            | .error e => .error e
            | .ok check_digit =>
              let total := weightedSum digits
              let remainder := total % 11
              if remainder = 0 then
                .ok (check_digit = 0)
              else if remainder = 1 then
                .ok false
              else
                .ok (check_digit = 11 - remainder)

/-- The validator's result as a boolean (it is proved below that the
`.error` branch is unreachable). -/
def validate_nhs_number (v : PyInput) : Bool :=
  match validate_nhs_numberE v with
  | .ok b => b
  | .error _ => false

/-- Spec-side restatement of the check-digit condition, written from the
spec's words ("strip all space and hyphen characters; exactly 10 decimal
digits; weighted sum with weight 10 − i over the first 9 digits;
remainder = sum mod 11; remainder 1 invalid; expected check digit 0 when
remainder is 0 and 11 − remainder otherwise"). -/
def nhsSpecHolds (s : String) : Bool :=
  let cl := stripWsHyphen s.toList
  cl.length = 10 && cl.all Char.isDigit &&
    (let ds := cl.map (fun c => c.toNat - 48)
     let r := weightedSum (ds.take 9) % 11
     !(r = 1) && (if r = 0 then ds.getD 9 0 = 0 else ds.getD 9 0 = 11 - r))

/-! ## The Conflict Detector (`check_appointment_conflicts`) -/

/-- A Python `datetime` as used by the conflict checker: `date` is the
ordinal day (folding year/month/day into one count), the remaining fields
are the time of day.  Chronological comparison is by `toSec`. -/
structure DateTime where
  date : Nat
  hour : Nat
  minute : Nat
  second : Nat
deriving DecidableEq, Repr

/-- Total seconds represented by a `DateTime`; Python's `<` on (UTC)
datetimes is `<` on this value. -/
def DateTime.toSec (d : DateTime) : Nat :=
  ((d.date * 24 + d.hour) * 60 + d.minute) * 60 + d.second

/-- `d.replace(minute=m)`: Python raises `ValueError` unless
`0 ≤ m ≤ 59`; otherwise only the minute field changes. -/
def DateTime.replaceMinute (d : DateTime) (m : Nat) : Except String DateTime :=
  if m ≤ 59 then .ok { d with minute := m }
  else .error "minute must be in 0..59"

/-- An existing appointment record as returned by the `PracticeIndex`
query.  `appointment_datetime = none` models a record whose stored
datetime string `datetime.fromisoformat` fails to parse (it raises);
`duration_minutes = none` models an absent `duration_minutes` attribute
(`existing.get('duration_minutes', 30)` then defaults to 30). -/
structure ApptRecord where
  appointment_id : Option String
  status : Option String
  appointment_datetime : Option DateTime
  duration_minutes : Option Nat
  practitioner_id : Option String
deriving DecidableEq, Repr

/-- Python truthiness of an optional string (`if practitioner_id:`):
`None` and the empty string are falsy. -/
def optTruthy : Option String → Bool
  | Option.none => false
  | some s => s ≠ ""

/-- `existing.get('status') in ['cancelled', 'completed']`. -/
def statusSkipped (e : ApptRecord) : Bool :=
  e.status = some "cancelled" || e.status = some "completed"

/-- The loop body of `check_appointment_conflicts`
(update_appointment.py lines 203-228): walk the queried records in order,
skipping the excluded appointment and cancelled/completed ones, parsing
each remaining record's datetime (which may raise), computing its end via
`replace(minute=...)` (which may raise), and collecting records that pass
the half-open overlap test and the practitioner-scoping test.  An
exception anywhere propagates out of the whole loop. -/
def scanConflicts (start_time end_time : DateTime)
    (practitioner_id exclude_id : Option String) :
    List ApptRecord → Except String (List ApptRecord)
  | [] => .ok []
  | e :: rest =>
    if e.appointment_id = exclude_id then
      scanConflicts start_time end_time practitioner_id exclude_id rest
    else if statusSkipped e then
      scanConflicts start_time end_time practitioner_id exclude_id rest
    else
      match e.appointment_datetime with
      | Option.none => .error "Invalid isoformat string"
      | some existing_time =>
        match existing_time.replaceMinute
            (existing_time.minute + e.duration_minutes.getD 30) with
        | .error msg => .error msg
        | .ok existing_end =>
          match scanConflicts start_time end_time practitioner_id exclude_id rest with
          | .error msg => .error msg
          | .ok tail_conflicts =>
            if start_time.toSec < existing_end.toSec
                && existing_time.toSec < end_time.toSec then
              if optTruthy practitioner_id then
                if e.practitioner_id = practitioner_id then
                  .ok (e :: tail_conflicts)
                else
                  .ok tail_conflicts
              else
                .ok (e :: tail_conflicts)
            else
              .ok tail_conflicts

/-- Shallow embedding of `check_appointment_conflicts`
(update_appointment.py lines 172-234; the create_appointment.py variant is
the special case `exclude_id = none`).  The candidate's parsed start time
and its validated duration are taken directly; the end time is computed
with `appt_time.replace(minute=appt_time.minute + duration_minutes)`.
The same-practice same-day query result is the `existing` list.  The
blanket `except Exception: return []` handler maps any raised error
to the empty conflict list ("assume no conflicts on error"). -/
def check_appointment_conflicts (appt_time : DateTime) (duration_minutes : Nat)
    (practitioner_id exclude_id : Option String)
    (existing : List ApptRecord) : List ApptRecord :=
  match appt_time.replaceMinute (appt_time.minute + duration_minutes) with
  | .error _ => []
  | .ok end_time =>
    match scanConflicts appt_time end_time practitioner_id exclude_id existing with
    | .error _ => []
    | .ok conflicts => conflicts

/-- Spec-side conflict predicate, written from the spec's words: the
candidate's half-open interval is `[start, start + duration)`; an existing
record conflicts iff it is not the excluded appointment, its status is not
cancelled or completed, its own interval `[e_start, e_start + e_duration)`
(duration defaulting to 30) overlaps the candidate's under
`A.start < B.end AND A.end > B.start`, and it satisfies the
practitioner-scoping rule (when the candidate's practitioner_id is set,
the record's practitioner must equal it; when unset, anything overlapping
counts). -/
def specConflict (start : DateTime) (duration : Nat)
    (practitioner_id exclude_id : Option String) (e : ApptRecord) : Bool :=
  !(e.appointment_id = exclude_id) &&
  !(statusSkipped e) &&
  (match e.appointment_datetime with
   | Option.none => false
   | some es =>
     let eDur := e.duration_minutes.getD 30
     (start.toSec < es.toSec + 60 * eDur
       && es.toSec < start.toSec + 60 * duration) &&
     (match practitioner_id with
      | Option.none => true
      | some p => e.practitioner_id = some p))

/-- Spec-side conflict list: the records satisfying `specConflict`, in
order. -/
def specConflicts (start : DateTime) (duration : Nat)
    (practitioner_id exclude_id : Option String)
    (existing : List ApptRecord) : List ApptRecord :=
  existing.filter (specConflict start duration practitioner_id exclude_id)

/-- The per-record condition actually computed by the loop body when no
exception occurs for the record: the code-side counterpart of
`specConflict`, phrased against the computed `end_time` and the
`replace`-computed record end. -/
def codeConflict (st en : DateTime) (pid exid : Option String)
    (e : ApptRecord) : Bool :=
  !(e.appointment_id = exid) && !(statusSkipped e) &&
  (match e.appointment_datetime with
   | Option.none => false
   | some et =>
     match et.replaceMinute (et.minute + e.duration_minutes.getD 30) with
     | .error _ => false
     | .ok ee =>
       (st.toSec < ee.toSec && et.toSec < en.toSec) &&
       (if optTruthy pid then decide (e.practitioner_id = pid) else true))

/-! Concrete times and records used in the counterexamples and witnesses
(the `date` field is an arbitrary ordinal day). -/

/-- 10:00 on some day. -/
def ten00 : DateTime := ⟨800000, 10, 0, 0⟩

/-- 10:15 on the same day. -/
def ten15 : DateTime := ⟨800000, 10, 15, 0⟩

/-- 10:30 on the same day. -/
def ten30 : DateTime := ⟨800000, 10, 30, 0⟩

/-- A scheduled 30-minute appointment record at a given time with a given
id and practitioner. -/
def mkSched (id : String) (t : DateTime) (pr : Option String) : ApptRecord :=
  ⟨some id, some "scheduled", some t, some 30, pr⟩

/-- A record whose stored `appointment_datetime` fails to parse. -/
def malformedRec : ApptRecord :=
  ⟨some "bad", some "scheduled", Option.none, some 30, Option.none⟩

/-- A `no_show` 30-minute appointment record at 10:00. -/
def noShowRec : ApptRecord :=
  ⟨some "ns", some "no_show", some ten00, some 30, Option.none⟩

/-- Spec-side normalization used by the algebraic claim: the input with
every space and hyphen character removed (and nothing else). -/
def removeSpacesHyphens (s : String) : String :=
  (s.toList.filter (fun c => !(c = ' ' || c = '-'))).asString

/-- Helper: mapping `pyDigitVal` over a list of digit characters never
fails and produces the digit values. -/
theorem mapM_pyDigitVal_of_digits (l : List Char) (h : l.all Char.isDigit) :
    l.mapM pyDigitVal = .ok (l.map (fun c => c.toNat - 48)) := by
  induction l with
  | nil => rfl
  | cons c t ih =>
    simp only [List.all_cons, Bool.and_eq_true] at h
    simp only [List.mapM_cons, pyDigitVal, h.1, if_true, ih h.2, List.map_cons]
    rfl

/-- Helper: on a string input the embedded validator never raises and
computes exactly the spec-side condition. -/
theorem validate_nhs_numberE_eq (s : String) :
    validate_nhs_numberE (.str s) = .ok (nhsSpecHolds s) := by
  unfold validate_nhs_numberE nhsSpecHolds
  by_cases hs : s = ""
  · subst hs; rfl
  · simp only [hs, if_false]
    set cl := stripWsHyphen s.toList with hcl
    by_cases hten : isTenDigits cl
    · have hlen : cl.length = 10 := by
        have := hten; unfold isTenDigits at this
        simp only [Bool.and_eq_true, decide_eq_true_eq] at this
        exact this.1
      have hdig : cl.all Char.isDigit := by
        have := hten; unfold isTenDigits at this
        simp only [Bool.and_eq_true] at this
        exact this.2
      have hdig9 : (cl.take 9).all Char.isDigit := by
        rw [List.all_eq_true] at hdig ⊢
        intro c hc
        exact hdig c (List.mem_of_mem_take hc)
      have h9 : cl.get? 9 = some (cl.getD 9 ' ') := by
        rw [List.getD_eq_getElem?_getD]
        cases h : cl[9]? with
        | none =>
          exfalso
          rw [List.getElem?_eq_none_iff] at h
          omega
        | some c => simp [List.get?_eq_getElem?, h]
      have hc9dig : (cl.getD 9 ' ').isDigit := by
        rw [List.all_eq_true] at hdig
        apply hdig
        rw [List.getD_eq_getElem?_getD]
        have : cl[9]? = some cl[9] := by
          rw [List.getElem?_eq_some_iff]
          exact ⟨by omega, rfl⟩
        rw [this]
        simp only [Option.getD_some]
        exact List.getElem_mem _
      have hpy : pyIndex cl 9 = .ok (cl.getD 9 ' ') := by
        unfold pyIndex
        rw [h9]
      have hcd : pyDigitVal (cl.getD 9 ' ') = .ok ((cl.getD 9 ' ').toNat - 48) := by
        unfold pyDigitVal
        rw [if_pos hc9dig]
      have hmap : (cl.take 9).map (fun c => c.toNat - 48)
          = (cl.map (fun c => c.toNat - 48)).take 9 := by
        rw [List.map_take]
      have hget : (cl.getD 9 ' ').toNat - 48
          = (cl.map (fun c => c.toNat - 48)).getD 9 0 := by
        rw [List.getD_eq_getElem?_getD, List.getD_eq_getElem?_getD,
          List.getElem?_map]
        have h9' : cl[9]? = some cl[9] := by
          rw [List.getElem?_eq_some_iff]
          exact ⟨by omega, rfl⟩
        rw [h9']
        rfl
      simp only [hten, Bool.not_true, if_false,
        mapM_pyDigitVal_of_digits _ hdig9, hpy, hcd, hmap, hget, hlen, hdig]
      set r := weightedSum ((cl.map (fun c => c.toNat - 48)).take 9) % 11 with hr
      by_cases h0 : r = 0
      · simp [h0]
      · by_cases h1 : r = 1
        · simp [h0, h1]
        · simp [h0, h1]
    · have h' : isTenDigits cl = false := by
        cases h : isTenDigits cl
        · rfl
        · exact absurd h hten
      have h2 : (decide (cl.length = 10) && cl.all Char.isDigit) = false := by
        have := h'
        unfold isTenDigits at this
        exact this
      simp [h', h2]

/-! ## Helper lemmas about the conflict scan -/

/-- Inversion for `replaceMinute`: success pins down the bound and the
result. -/
theorem replaceMinute_ok_iff (d : DateTime) (m : Nat) (d' : DateTime) :
    d.replaceMinute m = .ok d' ↔ m ≤ 59 ∧ d' = { d with minute := m } := by
  unfold DateTime.replaceMinute
  by_cases h : m ≤ 59
  · simp [h, eq_comm]
  · simp [h]

/-- The successful `replace(minute=minute+dur)` advances `toSec` by
exactly `60 * dur`. -/
theorem replaceMinute_toSec (d : DateTime) (dur : Nat) (d' : DateTime)
    (h : d.replaceMinute (d.minute + dur) = .ok d') :
    d'.toSec = d.toSec + 60 * dur := by
  rw [replaceMinute_ok_iff] at h
  rw [h.2]
  unfold DateTime.toSec
  simp only
  ring

/-- Any record of the scan result was in the input list, is not the
excluded appointment, is not cancelled/completed, and passed the parsed
overlap and practitioner tests. -/
theorem mem_scanConflicts {st en : DateTime} {pid exid : Option String}
    {l r : List ApptRecord} (hok : scanConflicts st en pid exid l = .ok r)
    {e : ApptRecord} (hmem : e ∈ r) :
    e ∈ l ∧ e.appointment_id ≠ exid ∧ statusSkipped e = false ∧
    ∃ et ee, e.appointment_datetime = some et ∧
      et.replaceMinute (et.minute + e.duration_minutes.getD 30) = .ok ee ∧
      st.toSec < ee.toSec ∧ et.toSec < en.toSec ∧
      (optTruthy pid = true → e.practitioner_id = pid) := by
  induction l generalizing r with
  | nil =>
    injection hok with hok
    subst hok
    cases hmem
  | cons hd t ih =>
    unfold scanConflicts at hok
    split at hok
    · obtain ⟨h1, h2⟩ := ih hok hmem
      exact ⟨List.mem_cons_of_mem _ h1, h2⟩
    · rename_i hex
      split at hok
      · obtain ⟨h1, h2⟩ := ih hok hmem
        exact ⟨List.mem_cons_of_mem _ h1, h2⟩
      · rename_i hsk
        have hskf : statusSkipped hd = false := by
          revert hsk
          cases statusSkipped hd <;> simp
        split at hok
        · exact Except.noConfusion hok
        · rename_i et hdt
          split at hok
          · exact Except.noConfusion hok
          · rename_i ee hre
            split at hok
            · exact Except.noConfusion hok
            · rename_i tail hsc
              split at hok
              · rename_i hov
                simp only [Bool.and_eq_true, decide_eq_true_eq] at hov
                split at hok
                · rename_i htr
                  split at hok
                  · rename_i hpe
                    injection hok with hok
                    subst hok
                    rcases List.mem_cons.mp hmem with he | hmt
                    · subst he
                      exact ⟨List.mem_cons_self _ _, hex, hskf, et, ee, hdt,
                        hre, hov.1, hov.2, fun _ => hpe⟩
                    · obtain ⟨h1, h2⟩ := ih hsc hmt
                      exact ⟨List.mem_cons_of_mem _ h1, h2⟩
                  · injection hok with hok
                    subst hok
                    obtain ⟨h1, h2⟩ := ih hsc hmem
                    exact ⟨List.mem_cons_of_mem _ h1, h2⟩
                · rename_i htr
                  injection hok with hok
                  subst hok
                  rcases List.mem_cons.mp hmem with he | hmt
                  · subst he
                    exact ⟨List.mem_cons_self _ _, hex, hskf, et, ee, hdt,
                      hre, hov.1, hov.2, fun h => absurd h htr⟩
                  · obtain ⟨h1, h2⟩ := ih hsc hmt
                    exact ⟨List.mem_cons_of_mem _ h1, h2⟩
              · injection hok with hok
                subst hok
                obtain ⟨h1, h2⟩ := ih hsc hmem
                exact ⟨List.mem_cons_of_mem _ h1, h2⟩

/-- Check-level membership characterization: a returned conflict implies
that the candidate's minute arithmetic stayed in range, the record was in
the queried list, was neither excluded nor cancelled/completed, its
datetime parsed with in-range minute arithmetic, its true half-open
interval overlaps the candidate's, and it matches a truthy candidate
practitioner. -/
theorem mem_check_appointment_conflicts {st : DateTime} {dur : Nat}
    {pid exid : Option String} {l : List ApptRecord} {e : ApptRecord}
    (hmem : e ∈ check_appointment_conflicts st dur pid exid l) :
    st.minute + dur ≤ 59 ∧ e ∈ l ∧ e.appointment_id ≠ exid ∧
    statusSkipped e = false ∧
    ∃ et, e.appointment_datetime = some et ∧
      et.minute + e.duration_minutes.getD 30 ≤ 59 ∧
      st.toSec < et.toSec + 60 * e.duration_minutes.getD 30 ∧
      et.toSec < st.toSec + 60 * dur ∧
      (optTruthy pid = true → e.practitioner_id = pid) := by
  unfold check_appointment_conflicts at hmem
  split at hmem
  · cases hmem
  · rename_i en hre
    split at hmem
    · cases hmem
    · rename_i r hsc
      have hb := (replaceMinute_ok_iff _ _ _).mp hre
      have hen : en.toSec = st.toSec + 60 * dur := replaceMinute_toSec _ _ _ hre
      obtain ⟨hl, hex, hsk, et, ee, hdt, hre', hov1, hov2, hpr⟩ :=
        mem_scanConflicts hsc hmem
      have hb' := (replaceMinute_ok_iff _ _ _).mp hre'
      have hee : ee.toSec = et.toSec + 60 * e.duration_minutes.getD 30 :=
        replaceMinute_toSec _ _ _ hre'
      exact ⟨hb.1, hl, hex, hsk, et, hdt, hb'.1, hee ▸ hov1, hen ▸ hov2, hpr⟩

/-- If the list contains a record that is neither excluded nor
cancelled/completed whose datetime fails to parse or whose minute
arithmetic leaves the 0..59 range, the scan raises. -/
theorem scanConflicts_error_of_bad (st en : DateTime)
    (pid exid : Option String) (l : List ApptRecord) (e : ApptRecord)
    (hmem : e ∈ l) (hex : ¬(e.appointment_id = exid))
    (hsk : ¬(statusSkipped e = true))
    (hbad : e.appointment_datetime = Option.none ∨
      ∃ et, e.appointment_datetime = some et ∧
        60 ≤ et.minute + e.duration_minutes.getD 30) :
    ∃ msg, scanConflicts st en pid exid l = .error msg := by
  induction l with
  | nil => cases hmem
  | cons hd t ih =>
    rcases List.mem_cons.mp hmem with he | hmt
    · subst he
      unfold scanConflicts
      rw [if_neg hex, if_neg hsk]
      rcases hbad with hnone | ⟨et, hdt, hwrap⟩
      · rw [hnone]
        exact ⟨_, rfl⟩
      · have hre : et.replaceMinute (et.minute + e.duration_minutes.getD 30)
            = .error "minute must be in 0..59" := by
          unfold DateTime.replaceMinute
          rw [if_neg (by omega)]
        simp only [hdt, hre]
        exact ⟨_, rfl⟩
    · obtain ⟨msg, hmsg⟩ := ih hmt
      unfold scanConflicts
      by_cases hex' : hd.appointment_id = exid
      · rw [if_pos hex']
        exact ⟨msg, hmsg⟩
      · rw [if_neg hex']
        by_cases hsk' : statusSkipped hd = true
        · rw [if_pos hsk']
          exact ⟨msg, hmsg⟩
        · rw [if_neg hsk']
          cases hdt : hd.appointment_datetime with
          | none =>
            exact ⟨_, rfl⟩
          | some et =>
            cases hre : et.replaceMinute (et.minute + hd.duration_minutes.getD 30) with
            | error m =>
              simp only [hre]
              exact ⟨m, rfl⟩
            | ok ee =>
              simp only [hre, hmsg]
              exact ⟨msg, rfl⟩

/-- Whole-check consequence: such a record makes the blanket handler
return the empty conflict list. -/
theorem check_eq_nil_of_bad_record (st : DateTime) (dur : Nat)
    (pid exid : Option String) (l : List ApptRecord) (e : ApptRecord)
    (hmem : e ∈ l) (hex : ¬(e.appointment_id = exid))
    (hsk : ¬(statusSkipped e = true))
    (hbad : e.appointment_datetime = Option.none ∨
      ∃ et, e.appointment_datetime = some et ∧
        60 ≤ et.minute + e.duration_minutes.getD 30) :
    check_appointment_conflicts st dur pid exid l = [] := by
  unfold check_appointment_conflicts
  cases hre : st.replaceMinute (st.minute + dur) with
  | error m => rfl
  | ok en =>
    obtain ⟨msg, hmsg⟩ := scanConflicts_error_of_bad st en pid exid l e hmem hex hsk hbad
    simp only [hmsg]

/-- Whole-check consequence of the candidate's own minute arithmetic
leaving the 0..59 range: the `replace` call raises before the loop and
the handler returns the empty conflict list. -/
theorem check_eq_nil_of_start_wrap (st : DateTime) (dur : Nat)
    (pid exid : Option String) (l : List ApptRecord)
    (h : 60 ≤ st.minute + dur) :
    check_appointment_conflicts st dur pid exid l = [] := by
  unfold check_appointment_conflicts
  have hre : st.replaceMinute (st.minute + dur) = .error "minute must be in 0..59" := by
    unfold DateTime.replaceMinute
    rw [if_neg (by omega)]
  simp only [hre]

/-- When every non-skipped record parses and stays within minute range,
the scan succeeds and returns exactly the records passing the code-side
conflict condition, in order. -/
theorem scanConflicts_ok_of_wf (st en : DateTime) (pid exid : Option String)
    (l : List ApptRecord)
    (hwf : ∀ e ∈ l, ¬(e.appointment_id = exid) → statusSkipped e = false →
      ∃ et, e.appointment_datetime = some et ∧
        et.minute + e.duration_minutes.getD 30 ≤ 59) :
    scanConflicts st en pid exid l = .ok (l.filter (codeConflict st en pid exid)) := by
  induction l with
  | nil => rfl
  | cons hd t ih =>
    have hwt : ∀ e ∈ t, ¬(e.appointment_id = exid) → statusSkipped e = false →
        ∃ et, e.appointment_datetime = some et ∧
          et.minute + e.duration_minutes.getD 30 ≤ 59 :=
      fun e he => hwf e (List.mem_cons_of_mem _ he)
    unfold scanConflicts
    by_cases hex : hd.appointment_id = exid
    · rw [if_pos hex, ih hwt]
      have hc : codeConflict st en pid exid hd = false := by
        unfold codeConflict
        simp [hex]
      rw [List.filter_cons, if_neg (by simp [hc])]
    · rw [if_neg hex]
      by_cases hsk : statusSkipped hd = true
      · rw [if_pos hsk, ih hwt]
        have hc : codeConflict st en pid exid hd = false := by
          unfold codeConflict
          simp [hsk]
        rw [List.filter_cons, if_neg (by simp [hc])]
      · have hskf : statusSkipped hd = false := by
          revert hsk
          cases statusSkipped hd <;> simp
        obtain ⟨et, hdt, hle⟩ := hwf hd (List.mem_cons_self _ _) hex hskf
        rw [if_neg hsk]
        have hre : et.replaceMinute (et.minute + hd.duration_minutes.getD 30)
            = .ok { et with minute := et.minute + hd.duration_minutes.getD 30 } := by
          unfold DateTime.replaceMinute
          rw [if_pos hle]
        have hcode : codeConflict st en pid exid hd
            = ((decide (st.toSec < DateTime.toSec
                  { et with minute := et.minute + hd.duration_minutes.getD 30 })
                && decide (et.toSec < en.toSec))
               && (if optTruthy pid = true then decide (hd.practitioner_id = pid)
                   else true)) := by
          unfold codeConflict
          simp only [hdt, hre, hskf, hex, decide_False, Bool.not_false,
            Bool.true_and, Bool.not_eq_true']
        simp only [hdt, hre, ih hwt]
        rw [List.filter_cons, hcode]
        split
        · rename_i hov
          split
          · rename_i htr
            by_cases hpe : hd.practitioner_id = pid
            · simp [hov, htr, hpe]
            · simp [hov, htr, hpe]
          · rename_i htr
            simp only [Bool.not_eq_true] at htr
            simp [hov, htr]
        · rename_i hov
          simp only [Bool.not_eq_true] at hov
          simp [hov]

/-- Pointwise agreement of the code-side and spec-side conflict
conditions, given that the computed end time is the true end time, the
candidate practitioner is not the (falsy) empty string, and the record's
own minute arithmetic stays in range whenever it is not skipped. -/
theorem codeConflict_eq_specConflict (st : DateTime) (dur : Nat)
    (pid exid : Option String) (en : DateTime) (e : ApptRecord)
    (hen : en.toSec = st.toSec + 60 * dur)
    (hpid : pid ≠ some "")
    (hwfe : ¬(e.appointment_id = exid) → statusSkipped e = false →
      ∃ et, e.appointment_datetime = some et ∧
        et.minute + e.duration_minutes.getD 30 ≤ 59) :
    codeConflict st en pid exid e = specConflict st dur pid exid e := by
  unfold codeConflict specConflict
  by_cases hex : e.appointment_id = exid
  · simp [hex]
  · by_cases hsk : statusSkipped e = true
    · simp [hsk]
    · have hskf : statusSkipped e = false := by
        revert hsk
        cases statusSkipped e <;> simp
      obtain ⟨et, hdt, hle⟩ := hwfe hex hskf
      have hre : et.replaceMinute (et.minute + e.duration_minutes.getD 30)
          = .ok { et with minute := et.minute + e.duration_minutes.getD 30 } := by
        unfold DateTime.replaceMinute
        rw [if_pos hle]
      have hsec : DateTime.toSec
            { et with minute := et.minute + e.duration_minutes.getD 30 }
          = et.toSec + 60 * e.duration_minutes.getD 30 :=
        replaceMinute_toSec _ _ _ hre
      simp only [hdt, hre, hskf, hex, decide_False, Bool.not_false,
        Bool.true_and, hsec, hen]
      cases pid with
      | none => simp [optTruthy]
      | some p =>
        have hp : ¬(p = "") := fun h => hpid (by rw [h])
        simp [optTruthy, hp]

/-- The amended functional-correctness engine: when the candidate's
minute arithmetic stays in range, the candidate practitioner is not the
empty string, and every non-skipped record parses with in-range minute
arithmetic, the check returns exactly the spec-side conflict list. -/
theorem check_eq_specConflicts (st : DateTime) (dur : Nat)
    (pid exid : Option String) (l : List ApptRecord)
    (hstart : st.minute + dur ≤ 59)
    (hpid : pid ≠ some "")
    (hwf : ∀ e ∈ l, ¬(e.appointment_id = exid) → statusSkipped e = false →
      ∃ et, e.appointment_datetime = some et ∧
        et.minute + e.duration_minutes.getD 30 ≤ 59) :
    check_appointment_conflicts st dur pid exid l
      = specConflicts st dur pid exid l := by
  unfold check_appointment_conflicts specConflicts
  have hre : st.replaceMinute (st.minute + dur)
      = .ok { st with minute := st.minute + dur } := by
    unfold DateTime.replaceMinute
    rw [if_pos hstart]
  have hen : DateTime.toSec { st with minute := st.minute + dur }
      = st.toSec + 60 * dur := replaceMinute_toSec _ _ _ hre
  simp only [hre, scanConflicts_ok_of_wf _ _ _ _ _ hwf]
  apply List.filter_congr
  intro e he
  exact codeConflict_eq_specConflict st dur pid exid _ e hen hpid (hwf e he)

/-- Inclusion direction: a well-formed, non-skipped, truly overlapping
record is returned whenever the candidate practitioner filter is falsy or
matches, provided the candidate's own arithmetic is in range and the
whole list is well-formed. -/
theorem mem_check_of_conflict (st : DateTime) (dur : Nat)
    (pid exid : Option String) (l : List ApptRecord)
    (hstart : st.minute + dur ≤ 59)
    (hwf : ∀ e ∈ l, ¬(e.appointment_id = exid) → statusSkipped e = false →
      ∃ et, e.appointment_datetime = some et ∧
        et.minute + e.duration_minutes.getD 30 ≤ 59)
    (e : ApptRecord) (he : e ∈ l)
    (hex : ¬(e.appointment_id = exid)) (hskf : statusSkipped e = false)
    (et : DateTime) (hdt : e.appointment_datetime = some et)
    (hov1 : st.toSec < et.toSec + 60 * e.duration_minutes.getD 30)
    (hov2 : et.toSec < st.toSec + 60 * dur)
    (hsc : optTruthy pid = false ∨ e.practitioner_id = pid) :
    e ∈ check_appointment_conflicts st dur pid exid l := by
  unfold check_appointment_conflicts
  have hre : st.replaceMinute (st.minute + dur)
      = .ok { st with minute := st.minute + dur } := by
    unfold DateTime.replaceMinute
    rw [if_pos hstart]
  have hen : DateTime.toSec { st with minute := st.minute + dur }
      = st.toSec + 60 * dur := replaceMinute_toSec _ _ _ hre
  simp only [hre, scanConflicts_ok_of_wf _ _ _ _ _ hwf]
  rw [List.mem_filter]
  refine ⟨he, ?_⟩
  obtain ⟨et', hdt', hle'⟩ := hwf e he hex hskf
  have het : et' = et := by
    rw [hdt] at hdt'
    injection hdt' with h
    exact h.symm
  subst het
  have hre' : et'.replaceMinute (et'.minute + e.duration_minutes.getD 30)
      = .ok { et' with minute := et'.minute + e.duration_minutes.getD 30 } := by
    unfold DateTime.replaceMinute
    rw [if_pos hle']
  have hsec : DateTime.toSec
        { et' with minute := et'.minute + e.duration_minutes.getD 30 }
      = et'.toSec + 60 * e.duration_minutes.getD 30 :=
    replaceMinute_toSec _ _ _ hre'
  unfold codeConflict
  simp only [hdt, hre', hskf, hex, decide_False, Bool.not_false,
    Bool.true_and, hsec, hen, hov1, hov2, decide_True, Bool.and_self]
  rcases hsc with hf | hm
  · simp [hf]
  · simp [hm]

/-! ## The claims -/

/-- C4: `validate_nhs_number` returns true on a string exactly when the
input, stripped of whitespace and hyphens, is ten decimal digits whose
first nine give a weighted sum with remainder `r = S % 11` satisfying
`r ≠ 1` and whose tenth digit is `0` when `r = 0` and `11 − r` otherwise;
in particular `'9434765919'` validates while `'9434765918'`,
`'1234567890'` and `'123456789'` do not, and remainder 1 always yields
false. -/
theorem C4_validator_checksum :
    (∀ s : String, validate_nhs_number (.str s) = true ↔ nhsSpecHolds s = true) ∧
    validate_nhs_number (.str "9434765919") = true ∧
    validate_nhs_number (.str "9434765918") = false ∧
    validate_nhs_number (.str "1234567890") = false ∧
    validate_nhs_number (.str "123456789") = false ∧
    (∀ s : String,
      weightedSum (((stripWsHyphen s.toList).map (fun c => c.toNat - 48)).take 9) % 11 = 1 →
      validate_nhs_number (.str s) = false) := by
  refine ⟨fun s => ?_, by decide, by decide, by decide, by decide, fun s h => ?_⟩
  · unfold validate_nhs_number
    rw [validate_nhs_numberE_eq]
  · unfold validate_nhs_number
    rw [validate_nhs_numberE_eq]
    cases hb : nhsSpecHolds s
    · rfl
    · exfalso
      unfold nhsSpecHolds at hb
      simp only [Bool.and_eq_true, Bool.not_eq_true', decide_eq_true_eq,
        decide_eq_false_iff_not] at hb
      exact absurd h hb.2.1

/-- Witness for C4: the remainder-1 clause applied at `'1234567890'`,
whose first nine digits give weighted sum 210 with remainder 1. -/
theorem C4_validator_checksum_witness :
    validate_nhs_number (.str "1234567890") = false :=
  C4_validator_checksum.2.2.2.2.2 "1234567890" (by decide)

/-- C9: the embedded validator never reaches an exception on any input
(None, a non-string, or any string), and every malformed input yields an
ordinary `false` result. -/
theorem C9_validator_never_raises :
    (∀ v : PyInput, ∃ b : Bool, validate_nhs_numberE v = .ok b) ∧
    validate_nhs_numberE .pyNone = .ok false ∧
    validate_nhs_numberE .nonStr = .ok false ∧
    validate_nhs_numberE (.str "") = .ok false ∧
    (∀ s : String, ¬(nhsSpecHolds s = true) →
      validate_nhs_numberE (.str s) = .ok false) := by
  refine ⟨fun v => ?_, rfl, rfl, rfl, fun s h => ?_⟩
  · cases v with
    | pyNone => exact ⟨false, rfl⟩
    | nonStr => exact ⟨false, rfl⟩
    | str s => exact ⟨nhsSpecHolds s, validate_nhs_numberE_eq s⟩
  · rw [validate_nhs_numberE_eq]
    cases hb : nhsSpecHolds s
    · rfl
    · exact absurd hb h

/-- Witness for C9: the malformed-input clause applied at the too-short
string `'123456789'`. -/
theorem C9_validator_never_raises_witness :
    validate_nhs_numberE (.str "123456789") = .ok false :=
  C9_validator_never_raises.2.2.2.2 "123456789" (by decide)

/-- C10: validation is invariant under removing spaces and hyphens from
the input; in particular `'943 476 5919'` validates the same as
`'9434765919'`. -/
theorem C10_strip_invariance :
    (∀ s : String, validate_nhs_number (.str s)
      = validate_nhs_number (.str (removeSpacesHyphens s))) ∧
    validate_nhs_number (.str "943 476 5919")
      = validate_nhs_number (.str "9434765919") := by
  refine ⟨fun s => ?_, by decide⟩
  unfold validate_nhs_number
  rw [validate_nhs_numberE_eq, validate_nhs_numberE_eq]
  unfold nhsSpecHolds
  have hstrip : stripWsHyphen (removeSpacesHyphens s).toList
      = stripWsHyphen s.toList := by
    unfold removeSpacesHyphens
    rw [List.toList_asString]
    unfold stripWsHyphen
    rw [List.filter_filter]
    apply List.filter_congr
    intro c _
    cases hc : isStripped c
    · have h1 : ¬(c = ' ' || c = '-') = true := by
        intro hor
        rcases Bool.or_eq_true_iff.mp hor with h | h
        · have : c = ' ' := by simpa using h
          subst this
          simp [isStripped] at hc
        · have : c = '-' := by simpa using h
          subst this
          simp [isStripped] at hc
      simp [hc, h1]
    · simp [hc]
  rw [hstrip]

/-- C1 counterexample: a candidate at 10:30 with duration 30 (in the 5-120
range) against an identical scheduled appointment.  The spec-side overlap
set contains the record, but the check returns the empty list, because
`replace(minute=30+30)` raises and the handler swallows the error. -/
theorem C1_counterexample :
    check_appointment_conflicts ten30 30 Option.none Option.none
      [mkSched "a" ten30 Option.none] = [] ∧
    specConflicts ten30 30 Option.none Option.none
      [mkSched "a" ten30 Option.none] = [mkSched "a" ten30 Option.none] := by
  constructor
  · decide
  · decide

/-- C1 (amended): for candidates with duration 5-120 whose start-minute
plus duration stays below 60, with a practitioner filter that is not the
falsy empty string, and lists whose non-skipped records parse with
in-range minute arithmetic, the check returns exactly the records whose
half-open interval `[e_start, e_start + e_duration)` (duration defaulting
to 30) overlaps `[start, start + duration)` under
`A.start < B.end AND A.end > B.start`, restricted to non-excluded,
non-cancelled/completed records satisfying the practitioner-scoping
rule. -/
theorem C1_conflicts_equal_spec (st : DateTime) (dur : Nat)
    (pid exid : Option String) (l : List ApptRecord)
    (_hdur : 5 ≤ dur ∧ dur ≤ 120)
    (hstart : st.minute + dur ≤ 59)
    (hpid : pid ≠ some "")
    (hwf : ∀ e ∈ l, ¬(e.appointment_id = exid) → statusSkipped e = false →
      ∃ et, e.appointment_datetime = some et ∧
        et.minute + e.duration_minutes.getD 30 ≤ 59) :
    check_appointment_conflicts st dur pid exid l
      = specConflicts st dur pid exid l :=
  check_eq_specConflicts st dur pid exid l hstart hpid hwf

/-- Witness for C1 (amended): a 10:00 + 30-minute candidate against one
identical scheduled record; both sides return that record. -/
theorem C1_conflicts_equal_spec_witness :
    check_appointment_conflicts ten00 30 Option.none Option.none
      [mkSched "a" ten00 Option.none]
      = specConflicts ten00 30 Option.none Option.none
        [mkSched "a" ten00 Option.none] :=
  C1_conflicts_equal_spec ten00 30 Option.none Option.none
    [mkSched "a" ten00 Option.none]
    (by decide) (by decide) (by decide)
    (fun e he => by
      have h : e = mkSched "a" ten00 Option.none := by
        cases List.mem_cons.mp he with
        | inl h => exact h
        | inr h => cases h
      subst h
      exact fun _ _ => ⟨ten00, rfl, by decide⟩)

/-- C2 counterexample: a well-formed conflicting record together with a
record whose stored datetime does not parse.  The claim says the
malformed record is skipped and the well-formed conflict still returned;
the code instead aborts the whole scan and returns the empty list (the
well-formed record alone does produce the conflict). -/
theorem C2_counterexample :
    check_appointment_conflicts ten00 30 Option.none Option.none
      [mkSched "good" ten00 Option.none, malformedRec] = [] ∧
    check_appointment_conflicts ten00 30 Option.none Option.none
      [mkSched "good" ten00 Option.none] = [mkSched "good" ten00 Option.none] ∧
    specConflict ten00 30 Option.none Option.none
      (mkSched "good" ten00 Option.none) = true := by
  refine ⟨by decide, by decide, by decide⟩

/-- C2 (amended): if any record that is not skipped by `exclude_id` or by
status has an unparseable stored datetime, the exception aborts the whole
scan and the blanket handler returns the empty list — no conflicts at
all, including those among the well-formed records. -/
theorem C2_parse_failure_aborts_scan (st : DateTime) (dur : Nat)
    (pid exid : Option String) (l : List ApptRecord) (e : ApptRecord)
    (hmem : e ∈ l) (hex : ¬(e.appointment_id = exid))
    (hsk : ¬(statusSkipped e = true))
    (hbad : e.appointment_datetime = Option.none) :
    check_appointment_conflicts st dur pid exid l = [] :=
  check_eq_nil_of_bad_record st dur pid exid l e hmem hex hsk (Or.inl hbad)

/-- Witness for C2 (amended): the malformed record of the counterexample
list makes the whole check return no conflicts. -/
theorem C2_parse_failure_aborts_scan_witness :
    check_appointment_conflicts ten00 30 Option.none Option.none
      [mkSched "good" ten00 Option.none, malformedRec] = [] :=
  C2_parse_failure_aborts_scan ten00 30 Option.none Option.none
    [mkSched "good" ten00 Option.none, malformedRec] malformedRec
    (by decide) (by decide) (by decide) rfl

/-- C3 counterexample: a `no_show` record with full time overlap is
returned as a conflict, so not every returned appointment has status
`scheduled`. -/
theorem C3_counterexample :
    check_appointment_conflicts ten00 30 Option.none Option.none [noShowRec]
      = [noShowRec] ∧ noShowRec.status = some "no_show" := by
  constructor
  · decide
  · rfl

/-- C3 (amended): every appointment in the returned conflict list has a
status other than `cancelled` and `completed` (so those two never
contribute a conflict), but any other stored status — including
`no_show` — can contribute. -/
theorem C3_no_cancelled_completed_returned (st : DateTime) (dur : Nat)
    (pid exid : Option String) (l : List ApptRecord) (e : ApptRecord)
    (hmem : e ∈ check_appointment_conflicts st dur pid exid l) :
    e.status ≠ some "cancelled" ∧ e.status ≠ some "completed" := by
  have h := (mem_check_appointment_conflicts hmem).2.2.2.1
  unfold statusSkipped at h
  constructor
  · intro hc
    rw [hc] at h
    simp at h
  · intro hc
    rw [hc] at h
    simp at h

/-- Witness for C3 (amended): applied to the scheduled record returned
for a 10:00 + 30-minute candidate. -/
theorem C3_no_cancelled_completed_returned_witness :
    (mkSched "a" ten00 Option.none).status ≠ some "cancelled" ∧
    (mkSched "a" ten00 Option.none).status ≠ some "completed" :=
  C3_no_cancelled_completed_returned ten00 30 Option.none Option.none
    [mkSched "a" ten00 Option.none] (mkSched "a" ten00 Option.none)
    (by decide)

/-- C5: whenever the candidate's start-minute plus duration reaches 60,
the check returns the empty list (no conflict), whatever overlapping
scheduled appointments exist; and likewise whenever any record not
skipped by `exclude_id` or by status has start-minute plus stored
duration reaching 60 — in both cases the minute arithmetic of
`replace(minute=...)` raises and the blanket handler returns `[]`. -/
theorem C5_minute_overflow_yields_empty :
    (∀ (st : DateTime) (dur : Nat) (pid exid : Option String)
       (l : List ApptRecord),
      60 ≤ st.minute + dur →
      check_appointment_conflicts st dur pid exid l = []) ∧
    (∀ (st : DateTime) (dur : Nat) (pid exid : Option String)
       (l : List ApptRecord) (e : ApptRecord) (et : DateTime),
      e ∈ l → ¬(e.appointment_id = exid) → ¬(statusSkipped e = true) →
      e.appointment_datetime = some et →
      60 ≤ et.minute + e.duration_minutes.getD 30 →
      check_appointment_conflicts st dur pid exid l = []) := by
  constructor
  · exact fun st dur pid exid l h =>
      check_eq_nil_of_start_wrap st dur pid exid l h
  · intro st dur pid exid l e et hmem hex hsk hdt hwrap
    exact check_eq_nil_of_bad_record st dur pid exid l e hmem hex hsk
      (Or.inr ⟨et, hdt, hwrap⟩)

/-- Witness for C5: a 10:30 + 30-minute candidate over an identical
scheduled record yields no conflict, and a 10:00 + 15-minute candidate
over an overlapping record starting at 9:50 with stored duration 30
(minute arithmetic 50 + 30 = 80) also yields no conflict. -/
theorem C5_minute_overflow_yields_empty_witness :
    check_appointment_conflicts ten30 30 Option.none Option.none
      [mkSched "a" ten30 Option.none] = [] ∧
    check_appointment_conflicts ten00 15 Option.none Option.none
      [mkSched "w" ⟨800000, 9, 50, 0⟩ Option.none] = [] :=
  ⟨C5_minute_overflow_yields_empty.1 ten30 30 Option.none Option.none
      [mkSched "a" ten30 Option.none] (by decide),
   C5_minute_overflow_yields_empty.2 ten00 15 Option.none Option.none
      [mkSched "w" ⟨800000, 9, 50, 0⟩ Option.none]
      (mkSched "w" ⟨800000, 9, 50, 0⟩ Option.none) ⟨800000, 9, 50, 0⟩
      (by decide) (by decide) (by decide) rfl (by decide)⟩

/-- C6: an appointment whose `appointment_id` equals the candidate's
`exclude_id` never appears in the returned conflict list, whatever its
time interval. -/
theorem C6_excluded_never_returned (st : DateTime) (dur : Nat)
    (pid : Option String) (x : String) (l : List ApptRecord)
    (e : ApptRecord)
    (hmem : e ∈ check_appointment_conflicts st dur pid (some x) l) :
    e.appointment_id ≠ some x :=
  fun h => (mem_check_appointment_conflicts hmem).2.2.1 (by rw [h])

/-- Witness for C6: with `exclude_id = "z"`, the record returned for an
exactly-overlapping candidate does not carry id `z`. -/
theorem C6_excluded_never_returned_witness :
    (mkSched "a" ten00 Option.none).appointment_id ≠ some "z" :=
  C6_excluded_never_returned ten00 30 Option.none "z"
    [mkSched "a" ten00 Option.none] (mkSched "a" ten00 Option.none)
    (by decide)

/-- C8: for two appointments where one's true end `start + duration`
equals the other's start, neither is ever reported as a conflict of a
candidate carrying the other's time and duration: touching endpoints of
half-open intervals do not overlap (and when the minute arithmetic
overflows instead, the check returns no conflicts at all). -/
theorem C8_back_to_back_no_conflict (At Bt : DateTime) (durA durB : Nat)
    (pidA exidA pidB exidB : Option String) (lA lB : List ApptRecord)
    (rA rB : ApptRecord)
    (hrA : rA.appointment_datetime = some At)
    (hdA : rA.duration_minutes.getD 30 = durA)
    (hrB : rB.appointment_datetime = some Bt)
    (hb2b : At.toSec + 60 * durA = Bt.toSec) :
    rB ∉ check_appointment_conflicts At durA pidA exidA lA ∧
    rA ∉ check_appointment_conflicts Bt durB pidB exidB lB := by
  constructor
  · intro hmem
    obtain ⟨-, -, -, -, et, hdt, -, -, hov2, -⟩ :=
      mem_check_appointment_conflicts hmem
    rw [hrB] at hdt
    injection hdt with h
    subst h
    omega
  · intro hmem
    obtain ⟨-, -, -, -, et, hdt, -, hov1, -, -⟩ :=
      mem_check_appointment_conflicts hmem
    rw [hrA] at hdt
    injection hdt with h
    subst h
    rw [hdA] at hov1
    omega

/-- Witness for C8: 10:00-10:15 and 10:15-10:30 appointments, each taken
as candidate against a list containing the other. -/
theorem C8_back_to_back_no_conflict_witness :
    (⟨some "rb", some "scheduled", some ten15, some 15, Option.none⟩ : ApptRecord) ∉
      check_appointment_conflicts ten00 15 Option.none Option.none
        [⟨some "rb", some "scheduled", some ten15, some 15, Option.none⟩] ∧
    (⟨some "ra", some "scheduled", some ten00, some 15, Option.none⟩ : ApptRecord) ∉
      check_appointment_conflicts ten15 15 Option.none Option.none
        [⟨some "ra", some "scheduled", some ten00, some 15, Option.none⟩] :=
  C8_back_to_back_no_conflict ten00 ten15 15 15
    Option.none Option.none Option.none Option.none
    [⟨some "rb", some "scheduled", some ten15, some 15, Option.none⟩]
    [⟨some "ra", some "scheduled", some ten00, some 15, Option.none⟩]
    ⟨some "ra", some "scheduled", some ten00, some 15, Option.none⟩
    ⟨some "rb", some "scheduled", some ten15, some 15, Option.none⟩
    rfl (by decide) rfl (by decide)

/-- C7 counterexample: a candidate with no practitioner_id at 10:30 + 45
minutes against an overlapping scheduled appointment of practitioner
`dr-2`.  The record satisfies the spec-side conflict condition, yet the
check returns the empty list (the minute arithmetic raises), so an
unset-practitioner candidate does not always conflict with an overlapping
appointment. -/
theorem C7_counterexample :
    specConflict ten30 45 Option.none Option.none
      (mkSched "c7" ten30 (some "dr-2")) = true ∧
    check_appointment_conflicts ten30 45 Option.none Option.none
      [mkSched "c7" ten30 (some "dr-2")] = [] := by
  constructor
  · decide
  · decide

/-- C7 (amended): when the candidate's practitioner_id is a non-empty
string, every returned conflict carries exactly that practitioner_id (so
a `dr-1` candidate never conflicts with a `dr-2` appointment); when the
candidate's practitioner_id is absent or the falsy empty string, every
non-excluded, non-cancelled/completed record whose true interval overlaps
the candidate's is returned, whatever its practitioner — provided the
candidate's and every non-skipped record's minute arithmetic stays below
60 and the record datetimes parse. -/
theorem C7_practitioner_scoping :
    (∀ (st : DateTime) (dur : Nat) (p : String) (exid : Option String)
       (l : List ApptRecord) (e : ApptRecord),
      p ≠ "" →
      e ∈ check_appointment_conflicts st dur (some p) exid l →
      e.practitioner_id = some p) ∧
    (∀ (st : DateTime) (dur : Nat) (pid exid : Option String)
       (l : List ApptRecord) (e : ApptRecord) (et : DateTime),
      optTruthy pid = false →
      st.minute + dur ≤ 59 →
      (∀ e' ∈ l, ¬(e'.appointment_id = exid) → statusSkipped e' = false →
        ∃ et', e'.appointment_datetime = some et' ∧
          et'.minute + e'.duration_minutes.getD 30 ≤ 59) →
      e ∈ l → ¬(e.appointment_id = exid) → statusSkipped e = false →
      e.appointment_datetime = some et →
      st.toSec < et.toSec + 60 * e.duration_minutes.getD 30 →
      et.toSec < st.toSec + 60 * dur →
      e ∈ check_appointment_conflicts st dur pid exid l) := by
  constructor
  · intro st dur p exid l e hp hmem
    obtain ⟨-, -, -, -, et, -, -, -, -, hpr⟩ :=
      mem_check_appointment_conflicts hmem
    exact hpr (by simp [optTruthy, hp])
  · intro st dur pid exid l e et hfalsy hstart hwf hmem hex hskf hdt hov1 hov2
    exact mem_check_of_conflict st dur pid exid l hstart hwf e hmem hex hskf
      et hdt hov1 hov2 (Or.inl hfalsy)

/-- Witness for C7 (amended): a `dr-1` candidate whose returned conflict
carries `dr-1`, and an unset-practitioner candidate that does conflict
with an overlapping `dr-2` appointment. -/
theorem C7_practitioner_scoping_witness :
    (mkSched "w1" ten00 (some "dr-1")).practitioner_id = some "dr-1" ∧
    mkSched "w2" ten00 (some "dr-2") ∈
      check_appointment_conflicts ten00 30 Option.none Option.none
        [mkSched "w2" ten00 (some "dr-2")] :=
  ⟨C7_practitioner_scoping.1 ten00 30 "dr-1" Option.none
      [mkSched "w1" ten00 (some "dr-1")] (mkSched "w1" ten00 (some "dr-1"))
      (by decide) (by decide),
   C7_practitioner_scoping.2 ten00 30 Option.none Option.none
      [mkSched "w2" ten00 (some "dr-2")] (mkSched "w2" ten00 (some "dr-2"))
      ten00 rfl (by decide)
      (fun e' he' => by
        have h : e' = mkSched "w2" ten00 (some "dr-2") := by
          cases List.mem_cons.mp he' with
          | inl h => exact h
          | inr h => cases h
        subst h
        exact fun _ _ => ⟨ten00, rfl, by decide⟩)
      (by decide) (by decide) (by decide) rfl (by decide) (by decide)⟩
